import Mathlib

set_option autoImplicit false

/-!
Verification development for the pypacker traffic-generator engine
(taf/testlib/dev_pypacker.py).  The Python classes are shallowly embedded:
packets are records with an attribute store and a serialized byte list,
per-field increment specifications are finite value lists, statistics are
total functions from interface names to counts, and the stateful methods
become explicit state-passing functions.  Python integer field values are
modelled as `Nat`; Python falsiness of a value (`if not value`) is `v = 0`,
and the `None` fill value of `itertools.zip_longest` is `Option.none`.
-/

/-- Abstract packet: an attribute store (field path to value, insertion
ordered, as `setattr` on a pypacker packet) plus the serialized frame
`bin()` as a byte list.  Claims touch only field values and the serialized
length, so the coupling between attributes and bytes is not modelled. -/
structure Packet where
  attrs : List (String × Nat)
  bin : List Nat
deriving DecidableEq, Repr

/-- Update-or-insert on the attribute store (Python `setattr`). -/
def setAttr : List (String × Nat) → String → Nat → List (String × Nat)
  | [], f, v => [(f, v)]
  | (g, w) :: rest, f, v =>
    if g = f then (g, v) :: rest else (g, w) :: setAttr rest f v

/-- Set a structured field of the packet (the `setattr` branches of
`PacketGenerator.__next__`, dev_pypacker.py lines 881-893 and 900-901). -/
def setField (p : Packet) (f : String) (v : Nat) : Packet :=
  { p with attrs := setAttr p.attrs f v }

/-- Padding pseudo-field (dev_pypacker.py lines 894-899): rebuild the frame
from its serialization, appending zero bytes when shorter than the target
and truncating when longer. -/
def padTo (p : Packet) (v : Nat) : Packet :=
  if p.bin.length < v then
    { p with bin := p.bin ++ List.replicate (v - p.bin.length) 0 }
  else
    { p with bin := p.bin.take v }

/-- Dispatch one field/value assignment as the inner loop body of
`PacketGenerator.__next__` does. -/
def applyValue (p : Packet) (f : String) (v : Nat) : Packet :=
  if f = "padding" then padTo p v else setField p f v

/-- One cell of a `zip_longest` row: skip the `None` fill value and falsy
values (`if not value: continue`, dev_pypacker.py lines 878-879). -/
def applyCell (p : Packet) (cell : String × Option Nat) : Packet :=
  match cell.2 with
  | none => p
  | some v => if v = 0 then p else applyValue p cell.1 v

/-- Apply one row of simultaneous per-field values, in field order
(dev_pypacker.py line 877, `zip_longest(fields, mapped_values)`). -/
def applyRow (p : Packet) (r : List (String × Option Nat)) : Packet :=
  r.foldl applyCell p

/-- One per-field increment spec: the field path together with the sequence
of values its generator will still produce. -/
abbrev FieldInc := String × List Nat

/-- One call of `PacketGenerator.__next__` (dev_pypacker.py lines 865-902):
with no increment specs the template is returned unchanged; otherwise
`itertools.zip_longest(*values)` pulls one value from every per-field
iterator (`none` for the exhausted ones), the first row is applied and the
packet returned; when every iterator is exhausted the `for` loop body never
runs and Python falls through returning `None`. -/
def pgNext (p : Packet) (incs : List FieldInc) : Option Packet × List FieldInc :=
  if incs.isEmpty then (some p, incs)
  else if incs.all (fun fv => fv.2.isEmpty) then (none, incs)
  else
    (some (applyRow p (incs.map fun fv => (fv.1, fv.2.head?))),
     incs.map fun fv => (fv.1, fv.2.tail))

/-- Repeatedly draw packets from the generator, stopping at the first
`None` (the fuel `n` bounds the number of draws). -/
def pgRun (p : Packet) (incs : List FieldInc) : Nat → List Packet
  | 0 => []
  | n + 1 =>
    match pgNext p incs with
    | (none, _) => []
    | (some q, incs2) => q :: pgRun q incs2 n

/-- Length of the longest configured value sequence. -/
def maxLen (incs : List FieldInc) : Nat :=
  incs.foldr (fun fv m => max fv.2.length m) 0

/-- The i-th `zip_longest` row: the i-th value of every field, `none` for
fields whose sequence is already exhausted. -/
def row (incs : List FieldInc) (i : Nat) : List (String × Option Nat) :=
  incs.map fun fv => (fv.1, (fv.2.drop i).head?)

/-- Advance every field sequence by one value. -/
def tails (incs : List FieldInc) : List FieldInc :=
  incs.map fun fv => (fv.1, fv.2.tail)

/-- The packet after the first `k` rows have been applied in order. -/
def packetAfter (p : Packet) (incs : List FieldInc) (k : Nat) : Packet :=
  (List.range k).foldl (fun q j => applyRow q (row incs j)) p

theorem drop_tail_eq {α : Type} (l : List α) (j : Nat) :
    l.tail.drop j = l.drop (j + 1) := by
  cases l <;> simp

theorem row_tails (incs : List FieldInc) (j : Nat) :
    row (tails incs) j = row incs (j + 1) := by
  simp only [row, tails, List.map_map]
  refine List.map_congr_left fun fv _ => ?_
  simp [Function.comp, drop_tail_eq]

theorem row_zero (incs : List FieldInc) :
    row incs 0 = incs.map fun fv => (fv.1, fv.2.head?) := by
  simp [row]

theorem maxLen_tails (incs : List FieldInc) :
    maxLen (tails incs) = maxLen incs - 1 := by
  induction incs with
  | nil => rfl
  | cons fv rest ih =>
    simp only [tails, List.map_cons, maxLen, List.foldr_cons] at *
    rw [ih]
    rcases fv with ⟨f, vs⟩
    simp only [List.length_tail]
    rcases Nat.le_total vs.length (rest.foldr (fun fv m => max fv.2.length m) 0) with h | h
    · rw [Nat.max_eq_right h, Nat.max_eq_right (by omega)]
    · rw [Nat.max_eq_left h, Nat.max_eq_left (by omega)]

theorem allEmpty_iff_maxLen (incs : List FieldInc) :
    (incs.all fun fv => fv.2.isEmpty) = true ↔ maxLen incs = 0 := by
  induction incs with
  | nil => simp [maxLen]
  | cons fv rest ih =>
    simp only [List.all_cons, Bool.and_eq_true, maxLen, List.foldr_cons] at *
    rw [ih]
    constructor
    · rintro ⟨h1, h2⟩
      rw [List.isEmpty_iff] at h1
      simp [h1, h2]
    · intro h
      have h1 : fv.2.length = 0 := by omega
      have h2 : rest.foldr (fun fv m => max fv.2.length m) 0 = 0 := by omega
      exact ⟨by simpa [List.isEmpty_iff, List.length_eq_zero] using h1, h2⟩

theorem packetAfter_zero (p : Packet) (incs : List FieldInc) :
    packetAfter p incs 0 = p := rfl

theorem packetAfter_succ (p : Packet) (incs : List FieldInc) (k : Nat) :
    packetAfter p incs (k + 1) =
      packetAfter (applyRow p (row incs 0)) (tails incs) k := by
  simp only [packetAfter, List.range_succ_eq_map, List.foldl_cons, List.foldl_map]
  have hf : (fun (q : Packet) (j : Nat) => applyRow q (row incs (j + 1))) =
      fun q j => applyRow q (row (tails incs) j) := by
    funext q j
    rw [row_tails]
  simp only [Nat.succ_eq_add_one, hf]

theorem pgRun_length (p : Packet) (incs : List FieldInc) (n : Nat)
    (h : incs ≠ []) : (pgRun p incs n).length = min n (maxLen incs) := by
  induction n generalizing p incs with
  | zero => simp [pgRun]
  | succ n ih =>
    have hne : incs.isEmpty = false := by simpa [List.isEmpty_iff] using h
    by_cases hall : (incs.all fun fv => fv.2.isEmpty) = true
    · have h0 : maxLen incs = 0 := (allEmpty_iff_maxLen incs).mp hall
      simp [pgRun, pgNext, hne, hall, h0]
    · have h1 : maxLen incs ≠ 0 := fun h0 =>
        hall ((allEmpty_iff_maxLen incs).mpr h0)
      have htne : tails incs ≠ [] := by
        simpa [tails, List.map_eq_nil_iff] using h
      simp only [pgRun, pgNext, hne, Bool.false_eq_true, if_false,
        hall, if_false, List.length_cons]
      rw [show (incs.map fun fv => (fv.1, fv.2.tail)) = tails incs from rfl,
        ih _ _ htne, maxLen_tails]
      omega

theorem pgRun_get (p : Packet) (incs : List FieldInc) (n i : Nat)
    (h : incs ≠ []) :
    (pgRun p incs n)[i]? =
      if i < min n (maxLen incs) then some (packetAfter p incs (i + 1))
      else none := by
  induction n generalizing p incs i with
  | zero => simp [pgRun]
  | succ n ih =>
    have hne : incs.isEmpty = false := by simpa [List.isEmpty_iff] using h
    by_cases hall : (incs.all fun fv => fv.2.isEmpty) = true
    · have h0 : maxLen incs = 0 := (allEmpty_iff_maxLen incs).mp hall
      simp [pgRun, pgNext, hne, hall, h0]
    · have h1 : maxLen incs ≠ 0 := fun h0 =>
        hall ((allEmpty_iff_maxLen incs).mpr h0)
      have htne : tails incs ≠ [] := by
        simpa [tails, List.map_eq_nil_iff] using h
      simp only [pgRun, pgNext, hne, Bool.false_eq_true, if_false, hall]
      rw [show (incs.map fun fv => (fv.1, fv.2.tail)) = tails incs from rfl]
      rw [show (incs.map fun fv => (fv.1, fv.2.head?)) = row incs 0 from
        (row_zero incs).symm]
      cases i with
      | zero =>
        have : 0 < min (n + 1) (maxLen incs) := by omega
        simp [this, packetAfter_succ, packetAfter_zero]
      | succ i =>
        simp only [List.getElem?_cons_succ]
        rw [ih _ _ _ htne, maxLen_tails]
        by_cases hlt : i < min n (maxLen incs - 1)
        · rw [if_pos hlt, if_pos (by omega), packetAfter_succ p incs (i + 1)]
        · rw [if_neg hlt, if_neg (by omega)]

/-- Per-interface statistics (`BaseStatistics`, dev_pypacker.py lines
807-845): a `defaultdict(int)` modelled as a total function defaulting
to 0. -/
abbrev Stats := String → Nat

/-- `BaseStatistics.increase` (dev_pypacker.py lines 820-829). -/
def statIncrease (s : Stats) (iface : String) (count : Nat) : Stats :=
  fun j => if j = iface then s j + count else s j

/-- `BaseStatistics.clear` (dev_pypacker.py lines 840-845). -/
def statClear (s : Stats) (iface : String) : Stats :=
  fun j => if j = iface then 0 else s j

/-- `PypackerTG._sendp` with a finite count (dev_pypacker.py lines
480-493): iterate `count` times; each iteration draws the next packet
variant, transmits it (recorded in the returned list) and increases the
sent counter for the interface by one.  When the generator falls through
returning `None`, the `None.bin()` call raises and the send aborts: the
flag in the result is `false` and the partial statistics remain. -/
def sendpRun (iface : String) (stats : Stats) (p : Packet)
    (incs : List FieldInc) : Nat → Stats × List Packet × Bool
  | 0 => (stats, [], true)
  | n + 1 =>
    match pgNext p incs with
    | (none, _) => (stats, [], false)
    | (some q, incs2) =>
      let r := sendpRun iface (statIncrease stats iface 1) q incs2 n
      (r.1, q :: r.2.1, r.2.2)

/-- Modelled from the spec: `PypackerIncrementPayloadGenerator`
(taf/testlib/tg_generators.py, imported by dev_pypacker.py but not under
src/) — the value sequence produced for a padding ("Increment", step,
min, max) size spec is the arithmetic progression from the minimum to the
maximum with the given step (spec section 8: a padding increment from 10
to 50 with step 10 yields sizes 10, 20, 30, 40, 50). -/
def incrementSeq (lo hi step : Nat) : List Nat :=
  (List.range ((hi - lo) / step + 1)).map fun i => lo + i * step

/-- C1 (amended): with at least one configured increment spec, the packet
variants are the positional zip of the per-field value sequences — the
i-th produced packet applies the i-th value of every field that still has
one — but exhaustion is zip-longest, not zip-shortest: a field whose
sequence is exhausted merely stops contributing (its cell is the skipped
`none`), and generation terminates only once every field's sequence is
exhausted, after `maxLen incs` packets. -/
theorem c1_zip_longest (p : Packet) (incs : List FieldInc) (n i : Nat)
    (h : incs ≠ []) :
    (pgRun p incs n).length = min n (maxLen incs) ∧
    (pgRun p incs n)[i]? =
      (if i < min n (maxLen incs) then some (packetAfter p incs (i + 1))
       else none) :=
  ⟨pgRun_length p incs n h, pgRun_get p incs n i h⟩

/-- Witness for `c1_zip_longest` at a concrete stream with two configured
fields whose sequences have lengths 1 and 2. -/
theorem c1_zip_longest_witness :
    (pgRun ⟨[], []⟩ [("dst", [7]), ("ip.src", [1, 2])] 3).length =
      min 3 (maxLen [("dst", [7]), ("ip.src", [1, 2])]) ∧
    (pgRun ⟨[], []⟩ [("dst", [7]), ("ip.src", [1, 2])] 3)[1]? =
      (if 1 < min 3 (maxLen [("dst", [7]), ("ip.src", [1, 2])]) then
        some (packetAfter ⟨[], []⟩ [("dst", [7]), ("ip.src", [1, 2])] 2)
       else none) :=
  c1_zip_longest ⟨[], []⟩ [("dst", [7]), ("ip.src", [1, 2])] 3 1 (by decide)

/-- C1 counterexample: the claim predicts zip-shortest termination — with
field "sa" holding 1 value and field "da" holding 2, generation would stop
after 1 packet.  The code keeps producing: the second call still returns a
packet (with "da" advanced to its second value and the exhausted "sa"
skipped), so 2 packets are produced, and only the third call terminates. -/
theorem c1_counterexample :
    (pgRun ⟨[], []⟩ [("sa", [1]), ("da", [2, 3])] 3).length = 2 ∧
    ¬(pgRun ⟨[], []⟩ [("sa", [1]), ("da", [2, 3])] 3).length ≤ 1 ∧
    (pgRun ⟨[], []⟩ [("sa", [1]), ("da", [2, 3])] 3)[1]? =
      some ⟨[("sa", 1), ("da", 3)], []⟩ := by
  decide

/-- C7: the padding pseudo-field rebuilds the frame from its serialization
to exactly the target length — zero bytes appended when shorter, truncated
when longer — and a stream whose only increment is a padding spec from 10
to 50 with step 10 emits five packets of serialized lengths
10, 20, 30, 40, 50. -/
theorem c7_padding_length :
    (∀ (p : Packet) (v : Nat), ((padTo p v).bin).length = v) ∧
    (pgRun ⟨[], List.replicate 14 0⟩ [("padding", incrementSeq 10 50 10)] 5).map
        (fun q => q.bin.length) = [10, 20, 30, 40, 50] := by
  constructor
  · intro p v
    unfold padTo
    by_cases h : p.bin.length < v
    · simp only [h, if_true, List.length_append, List.length_replicate]
      omega
    · simp only [h, if_false, List.length_take]
      omega
  · decide

/-- C3: over a run of `_sendp` that completes without error, exactly
`count` iterations happen: the transmitted-packet list has length `count`
and the interface's sent counter ends exactly `count` larger than it
started (one transmission and one increment per iteration). -/
theorem c3_sendp_count (iface : String) (stats : Stats) (p : Packet)
    (incs : List FieldInc) (n : Nat)
    (h : (sendpRun iface stats p incs n).2.2 = true) :
    (sendpRun iface stats p incs n).2.1.length = n ∧
    (sendpRun iface stats p incs n).1 iface = stats iface + n := by
  induction n generalizing stats p incs with
  | zero => simp [sendpRun]
  | succ n ih =>
    rw [sendpRun] at h ⊢
    rcases hn : pgNext p incs with ⟨op, incs2⟩
    rw [hn] at h
    cases op with
    | none => simp at h
    | some q =>
      simp only [List.length_cons]
      have h2 : (sendpRun iface (statIncrease stats iface 1) q incs2 n).2.2
          = true := by simpa using h
      have := ih (statIncrease stats iface 1) q incs2 h2
      refine ⟨by omega, ?_⟩
      rw [this.2]
      simp [statIncrease]
      omega

/-- Witness for `c3_sendp_count`: a stream with a two-value increment sent
with count 2 from zeroed statistics. -/
theorem c3_sendp_count_witness :
    (sendpRun "eth0" (fun _ => 0) ⟨[], []⟩ [("dst", [7, 8])] 2).2.1.length = 2 ∧
    (sendpRun "eth0" (fun _ => 0) ⟨[], []⟩ [("dst", [7, 8])] 2).1 "eth0" =
      (fun _ => 0 : Stats) "eth0" + 2 :=
  c3_sendp_count "eth0" (fun _ => 0) ⟨[], []⟩ [("dst", [7, 8])] 2 (by decide)

/-- Collector (dev_pypacker.py lines 779-804): per-interface capture
buckets, a `defaultdict(list)` modelled as an insertion-ordered
association list; captured packets are opaque ids. -/
abbrev Collector := List (String × List Nat)

/-- `Collector.collect` (dev_pypacker.py lines 792-797): append the
captured packet to the interface's bucket, creating the bucket on first
use as `defaultdict` does. -/
def collect : Collector → String → Nat → Collector
  | [], port, pkt => [(port, [pkt])]
  | (q, ps) :: rest, port, pkt =>
    if q = port then (q, ps ++ [pkt]) :: rest
    else (q, ps) :: collect rest port pkt

/-- Bucket lookup in the collector dictionary. -/
def lookupBucket : Collector → String → Option (List Nat)
  | [], _ => none
  | (q, ps) :: rest, port =>
    if q = port then some ps else lookupBucket rest port

/-- Removal of a bucket, as `dict.pop` does on its key. -/
def removeBucket : Collector → String → Collector
  | [], _ => []
  | (q, ps) :: rest, port =>
    if q = port then rest else (q, ps) :: removeBucket rest port

/-- `PypackerTG._grab_data_from_thread` restricted to the collector
(dev_pypacker.py lines 184-195): `self._collector.data.pop(iface)` with
`KeyError` suppressed, so a missing bucket yields the empty list and
leaves the collector unchanged. -/
def grabData (c : Collector) (port : String) : List Nat × Collector :=
  match lookupBucket c port with
  | some ps => (ps, removeBucket c port)
  | none => ([], c)

/-- The collector after a FIFO sequence of frames from one capture source
has been delivered to `collect` for one interface. -/
def collectAll (c : Collector) (port : String) (pkts : List Nat) : Collector :=
  pkts.foldl (fun c2 k => collect c2 port k) c

theorem collect_absent (c0 : Collector) (port : String) (k : Nat)
    (h : lookupBucket c0 port = none) :
    collect c0 port k = c0 ++ [(port, [k])] := by
  induction c0 with
  | nil => simp [collect]
  | cons e rest ih =>
    rcases e with ⟨q, ps⟩
    by_cases hq : q = port
    · simp [lookupBucket, hq] at h
    · simp only [lookupBucket, hq, if_false] at h
      simp [collect, hq, ih h]

theorem collect_tip (c0 : Collector) (port : String) (acc : List Nat)
    (k : Nat) (h : lookupBucket c0 port = none) :
    collect (c0 ++ [(port, acc)]) port k = c0 ++ [(port, acc ++ [k])] := by
  induction c0 with
  | nil => simp [collect]
  | cons e rest ih =>
    rcases e with ⟨q, ps⟩
    by_cases hq : q = port
    · simp [lookupBucket, hq] at h
    · simp only [lookupBucket, hq, if_false] at h
      simp [collect, hq, ih h]

theorem lookup_tip (c0 : Collector) (port : String) (ps : List Nat)
    (h : lookupBucket c0 port = none) :
    lookupBucket (c0 ++ [(port, ps)]) port = some ps := by
  induction c0 with
  | nil => simp [lookupBucket]
  | cons e rest ih =>
    rcases e with ⟨q, qs⟩
    by_cases hq : q = port
    · simp [lookupBucket, hq] at h
    · simp only [lookupBucket, hq, if_false] at h
      simp [lookupBucket, hq, ih h]

theorem remove_tip (c0 : Collector) (port : String) (ps : List Nat)
    (h : lookupBucket c0 port = none) :
    removeBucket (c0 ++ [(port, ps)]) port = c0 := by
  induction c0 with
  | nil => simp [removeBucket]
  | cons e rest ih =>
    rcases e with ⟨q, qs⟩
    by_cases hq : q = port
    · simp [lookupBucket, hq] at h
    · simp only [lookupBucket, hq, if_false] at h
      simp [removeBucket, hq, ih h]

theorem collectAll_tip (c0 : Collector) (port : String) (acc : List Nat)
    (pkts : List Nat) (h : lookupBucket c0 port = none) :
    collectAll (c0 ++ [(port, acc)]) port pkts = c0 ++ [(port, acc ++ pkts)] := by
  induction pkts generalizing acc with
  | nil => simp [collectAll]
  | cons k rest ih =>
    simp only [collectAll, List.foldl_cons] at *
    rw [collect_tip c0 port acc k h, ih (acc ++ [k])]
    simp

/-- C5: for a single-source capture on one interface whose collector
bucket starts absent, the packet list drained for that interface equals
the FIFO sequence of captured packets handed to `Collector.collect`, with
no duplication or loss, and the drain removes the bucket, restoring the
collector to its prior state. -/
theorem c5_collector_roundtrip (c0 : Collector) (port : String)
    (pkts : List Nat) (h : lookupBucket c0 port = none) :
    grabData (collectAll c0 port pkts) port = (pkts, c0) ∧
    lookupBucket (grabData (collectAll c0 port pkts) port).2 port = none := by
  cases pkts with
  | nil =>
    simp [collectAll, grabData, h]
  | cons k rest =>
    have hstep : collectAll c0 port (k :: rest) = c0 ++ [(port, k :: rest)] := by
      simp only [collectAll, List.foldl_cons]
      rw [collect_absent c0 port k h]
      have := collectAll_tip c0 port [k] rest h
      simp only [collectAll] at this
      rw [this]
      simp
    rw [hstep]
    simp only [grabData, lookup_tip c0 port (k :: rest) h,
      remove_tip c0 port (k :: rest) h]
    exact ⟨trivial, h⟩

/-- Witness for `c5_collector_roundtrip`: an interface with an absent
bucket in a collector that already holds another interface's bucket, and
three captured frames. -/
theorem c5_collector_roundtrip_witness :
    grabData (collectAll [("eth1", [9])] "eth0" [1, 2, 3]) "eth0" =
      ([1, 2, 3], [("eth1", [9])]) ∧
    lookupBucket (grabData (collectAll [("eth1", [9])] "eth0" [1, 2, 3]) "eth0").2
      "eth0" = none :=
  c5_collector_roundtrip [("eth1", [9])] "eth0" [1, 2, 3] (by decide)

/-- One stream definition as stored by `set_stream` (dev_pypacker.py line
337): the target interface and the configured finite count (`none` for a
continuous stream). -/
structure StreamDef where
  iface : Option String
  count : Option Nat
deriving DecidableEq, Repr

/-- Engine state of a `PypackerTG` instance (dev_pypacker.py lines
142-147): the stream table, the sniffer threads (by their `sniff_port`, in
spawn order), the sender threads (`_send_threads`: stream id with its
`active` flag), and both statistics objects. -/
structure TGState where
  streams : List (Nat × StreamDef)
  sniffPorts : List String
  sendActive : List (Nat × Bool)
  sentStats : Stats
  recvStats : Stats

/-- The conflict scan at the top of `start_sniff` (dev_pypacker.py lines
381-385): it walks the existing sniffer threads against the requested
interfaces; sender threads are never consulted. -/
def conflictCheck (st : TGState) (ifaces : List String) : Bool :=
  st.sniffPorts.any fun port => ifaces.any fun iface => iface == port

/-- The spawn loop of `start_sniff` (dev_pypacker.py lines 387-395): one
sniffer thread appended per requested interface, in order. -/
def spawnSniffers (st : TGState) (ifaces : List String) : TGState :=
  { st with sniffPorts := st.sniffPorts ++ ifaces }

/-- `PypackerTG.start_sniff` (dev_pypacker.py lines 375-398): the conflict
scan runs to completion before the first thread is spawned, and the raise
happens before any mutation, so a failing call returns the state
unchanged together with the error. -/
def startSniff (st : TGState) (ifaces : List String) : TGState × Option String :=
  if conflictCheck st ifaces then
    (st, some "There is an another sniffer already started on port")
  else
    (spawnSniffers st ifaces, none)

/-- An interface is held by an active sender when some running send thread
transmits a stream configured on that interface. -/
def senderHolds (st : TGState) (iface : String) : Bool :=
  st.sendActive.any fun sa =>
    sa.2 && st.streams.any fun s => s.1 == sa.1 && s.2.iface == some iface

/-- Concrete engine state for the C2 counterexample: stream 1 is defined
on interface "eth0" and its sender thread is active; no sniffers run. -/
def senderBusyState : TGState :=
  { streams := [(1, { iface := some "eth0", count := some 1 })]
    sniffPorts := []
    sendActive := [(1, true)]
    sentStats := fun _ => 0
    recvStats := fun _ => 0 }

/-- C2 counterexample: with interface "eth0" held by an active sender,
`start_sniff ["eth0"]` does not fail — the conflict scan only inspects
sniffer threads — and it spawns a sniffer on the sender's interface. -/
theorem c2_counterexample :
    senderHolds senderBusyState "eth0" = true ∧
    (startSniff senderBusyState ["eth0"]).2 = none ∧
    (startSniff senderBusyState ["eth0"]).1.sniffPorts = ["eth0"] := by
  refine ⟨by decide, rfl, rfl⟩

/-- C2 (amended): the resource conflict `start_sniff` rejects is a sniffer
conflict: when a requested interface is already held by an active sniffer
thread, the call fails with the conflict error and returns with the engine
state — in particular every running sender — untouched, before any
sniffer thread (and hence any capture handle, which only a spawned sniffer
body opens) comes into existence.  Conflicts with senders are not
detected. -/
theorem c2_sniffer_conflict (st : TGState) (ifaces : List String)
    (iface : String) (h1 : iface ∈ st.sniffPorts) (h2 : iface ∈ ifaces) :
    (startSniff st ifaces).2.isSome = true ∧ (startSniff st ifaces).1 = st := by
  have hc : conflictCheck st ifaces = true := by
    simp only [conflictCheck, List.any_eq_true]
    exact ⟨iface, h1, iface, h2, by simp⟩
  simp [startSniff, hc]

/-- Concrete engine state for the C2 witness: a sniffer already runs on
interface "eth0". -/
def snifferBusyState : TGState :=
  { streams := []
    sniffPorts := ["eth0"]
    sendActive := []
    sentStats := fun _ => 0
    recvStats := fun _ => 0 }

/-- Witness for `c2_sniffer_conflict` at a concrete conflicting call. -/
theorem c2_sniffer_conflict_witness :
    (startSniff snifferBusyState ["eth0", "eth1"]).2.isSome = true ∧
    (startSniff snifferBusyState ["eth0", "eth1"]).1 = snifferBusyState :=
  c2_sniffer_conflict snifferBusyState ["eth0", "eth1"] "eth0"
    (by decide) (by decide)

/-- C8: a `start_sniff` call that fails with the interface-conflict error
leaves the engine state exactly as before the call — no sniffer thread is
spawned for any interface of the batch (conflicting or not), the stream
table, send threads and both counters are unchanged — and the only way the
call fails is that conflict scan. -/
theorem c8_failed_sniff_no_effect (st : TGState) (ifaces : List String)
    (h : (startSniff st ifaces).2.isSome = true) :
    (startSniff st ifaces).1 = st ∧ conflictCheck st ifaces = true := by
  by_cases hc : conflictCheck st ifaces = true
  · simp [startSniff, hc]
  · simp [startSniff, hc] at h

/-- Concrete engine state for the C8 witness: a sniffer runs on "eth2"
while a stream is defined and counters are nonzero. -/
def sniffBatchState : TGState :=
  { streams := [(1, { iface := some "eth9", count := none })]
    sniffPorts := ["eth2"]
    sendActive := [(1, false)]
    sentStats := fun j => if j = "eth9" then 4 else 0
    recvStats := fun j => if j = "eth2" then 2 else 0 }

/-- Witness for `c8_failed_sniff_no_effect`: a two-interface batch whose
second member conflicts; neither interface gets a sniffer. -/
theorem c8_failed_sniff_no_effect_witness :
    (startSniff sniffBatchState ["eth3", "eth2"]).1 = sniffBatchState ∧
    conflictCheck sniffBatchState ["eth3", "eth2"] = true :=
  c8_failed_sniff_no_effect sniffBatchState ["eth3", "eth2"] (by decide)

/-- The two statistics objects of the engine (dev_pypacker.py lines
146-147). -/
structure Counters where
  sent : Stats
  recv : Stats

/-- Engine operations that touch a statistics counter, as found in the
source: a `_sendp` loop iteration (line 492), a matching frame in the
sniffer callback `put_to_collector` (line 528), the unconditional
`receive_statistics.clear(sniff_port)` at the top of the `_sniffer` body
(line 545), and the caller-facing clears `clear_sent_statistics` (line
617) and `clear_received_statistics` (line 649); `clear_statistics` is the
composition of the last two per port. -/
inductive StatsOp where
  | sendIter (iface : String)
  | sniffMatch (iface : String)
  | snifferBodyStart (iface : String)
  | clearSentOp (iface : String)
  | clearReceivedOp (iface : String)
deriving DecidableEq, Repr

/-- Effect of one statistics-touching operation. -/
def applyOp (c : Counters) (op : StatsOp) : Counters :=
  match op with
  | .sendIter iface => { c with sent := statIncrease c.sent iface 1 }
  | .sniffMatch iface => { c with recv := statIncrease c.recv iface 1 }
  | .snifferBodyStart iface => { c with recv := statClear c.recv iface }
  | .clearSentOp iface => { c with sent := statClear c.sent iface }
  | .clearReceivedOp iface => { c with recv := statClear c.recv iface }

/-- Whether an operation is an explicit clear-statistics call by the
caller. -/
def isExplicitClear : StatsOp → Bool
  | .clearSentOp _ => true
  | .clearReceivedOp _ => true
  | _ => false

/-- Concrete counters for the C4 counterexample: interface "eth0" has
received 5 frames. -/
def countersBefore : Counters :=
  { sent := fun _ => 0
    recv := fun j => if j = "eth0" then 5 else 0 }

/-- C4 counterexample: starting a sniffer is not an explicit
clear-statistics call, yet the `_sniffer` body begins with
`receive_statistics.clear(sniff_port)`: on counters where "eth0" has
received 5 frames, the operation drops that counter to 0, so counters are
not monotonically non-decreasing under every non-clear engine
operation. -/
theorem c4_counterexample :
    isExplicitClear (StatsOp.snifferBodyStart "eth0") = false ∧
    countersBefore.recv "eth0" = 5 ∧
    (applyOp countersBefore (StatsOp.snifferBodyStart "eth0")).recv "eth0" = 0 ∧
    ¬countersBefore.recv "eth0" ≤
      (applyOp countersBefore (StatsOp.snifferBodyStart "eth0")).recv "eth0" := by
  refine ⟨rfl, rfl, rfl, by decide⟩

/-- C4 (amended): both counters are monotonically non-decreasing under
every statistics-touching engine operation except the explicit clears and
the start of a sniffer body; starting a sniffer on an interface resets
that interface's received counter to zero but leaves every sent counter
and every other interface's received counter unchanged. -/
theorem c4_counters_monotone :
    (∀ (c : Counters) (op : StatsOp) (i : String),
      isExplicitClear op = false →
      (∀ j, op ≠ StatsOp.snifferBodyStart j) →
      c.sent i ≤ (applyOp c op).sent i ∧ c.recv i ≤ (applyOp c op).recv i) ∧
    (∀ (c : Counters) (j i : String),
      (applyOp c (StatsOp.snifferBodyStart j)).sent i = c.sent i ∧
      (applyOp c (StatsOp.snifferBodyStart j)).recv j = 0 ∧
      (i ≠ j → (applyOp c (StatsOp.snifferBodyStart j)).recv i = c.recv i)) := by
  constructor
  · intro c op i hclear hsniff
    cases op with
    | sendIter k =>
      constructor
      · simp only [applyOp, statIncrease]
        by_cases hik : i = k <;> simp [hik]
      · simp [applyOp]
    | sniffMatch k =>
      constructor
      · simp [applyOp]
      · simp only [applyOp, statIncrease]
        by_cases hik : i = k <;> simp [hik]
    | snifferBodyStart k => exact absurd rfl (hsniff k)
    | clearSentOp k => simp [isExplicitClear] at hclear
    | clearReceivedOp k => simp [isExplicitClear] at hclear
  · intro c j i
    refine ⟨rfl, by simp [applyOp, statClear], fun hij => ?_⟩
    simp [applyOp, statClear, hij]

/-- Witness for `c4_counters_monotone`: a send iteration on "eth0" keeps
both counters non-decreasing, and a sniffer start on "eth1" resets only
that interface's received count. -/
theorem c4_counters_monotone_witness :
    (countersBefore.sent "eth0" ≤
        (applyOp countersBefore (StatsOp.sendIter "eth0")).sent "eth0" ∧
      countersBefore.recv "eth0" ≤
        (applyOp countersBefore (StatsOp.sendIter "eth0")).recv "eth0") ∧
    ((applyOp countersBefore (StatsOp.snifferBodyStart "eth1")).sent "eth0" =
        countersBefore.sent "eth0" ∧
      (applyOp countersBefore (StatsOp.snifferBodyStart "eth1")).recv "eth1" = 0 ∧
      ("eth0" ≠ "eth1" →
        (applyOp countersBefore (StatsOp.snifferBodyStart "eth1")).recv "eth0" =
          countersBefore.recv "eth0")) :=
  ⟨c4_counters_monotone.1 countersBefore (StatsOp.sendIter "eth0") "eth0" rfl
      (fun j h => by cases h),
    c4_counters_monotone.2 countersBefore "eth1" "eth0"⟩

/-- The activation wait loop of `start_streams` (dev_pypacker.py lines
448-457), in discrete ticks of the loop's 0.1 s sleep: each iteration
first asks whether every thread of the batch has set its `active` flag
(exiting with success), then whether the deadline has strictly passed
(exiting with the logged warning and no error), and otherwise sleeps one
tick and retries. -/
def waitLoop (active : Nat → Bool) (endTime t : Nat) : Nat × Bool :=
  if active t then (t, true)
  else if endTime < t then (t, false)
  else waitLoop active endTime (t + 1)
termination_by endTime + 1 - t
decreasing_by
  simp_wf
  omega

/-- The whole readiness wait of `start_streams`: `end_time = time.time() +
len(stream_list)` (line 449), i.e. one second — ten ticks — per stream of
the batch, starting at tick 0. -/
def startStreamsWait (batch : Nat) (active : Nat → Bool) : Nat × Bool :=
  waitLoop active (10 * batch) 0

theorem waitLoop_spec_aux (active : Nat → Bool) (endTime : Nat) :
    ∀ (k t0 : Nat), endTime + 1 - t0 ≤ k →
    t0 ≤ (waitLoop active endTime t0).1 ∧
    (waitLoop active endTime t0).1 ≤ max t0 (endTime + 1) ∧
    ((waitLoop active endTime t0).2 = true ↔
      active (waitLoop active endTime t0).1 = true) ∧
    (∀ t, t0 ≤ t → t < (waitLoop active endTime t0).1 → active t = false) ∧
    ((waitLoop active endTime t0).2 = false →
      (waitLoop active endTime t0).1 = max t0 (endTime + 1)) := by
  intro k
  induction k with
  | zero =>
    intro t0 hk
    rw [waitLoop]
    by_cases ha : active t0 = true
    · simp only [ha, if_true]
      refine ⟨le_refl t0, by omega, by simp [ha], by omega, by simp⟩
    · rw [if_neg (by simp [ha]), if_pos (by omega)]
      refine ⟨le_refl t0, by omega, by simp [ha], by omega, fun _ => by omega⟩
  | succ k ih =>
    intro t0 hk
    rw [waitLoop]
    by_cases ha : active t0 = true
    · simp only [ha, if_true]
      refine ⟨le_refl t0, by omega, by simp [ha], by omega, by simp⟩
    · rw [if_neg (by simp [ha])]
      by_cases hd : endTime < t0
      · rw [if_pos hd]
        refine ⟨le_refl t0, by omega, by simp [ha], by omega, fun _ => by omega⟩
      · rw [if_neg hd]
        have h := ih (t0 + 1) (by omega)
        refine ⟨by omega, by omega, h.2.2.1, ?_, ?_⟩
        · intro t h1 h2
          rcases Nat.eq_or_lt_of_le h1 with he | hl
          · subst he
            simpa using ha
          · exact h.2.2.2.1 t (by omega) h2
        · intro hf
          have := h.2.2.2.2 hf
          omega

theorem waitLoop_spec (active : Nat → Bool) (endTime t0 : Nat) :
    t0 ≤ (waitLoop active endTime t0).1 ∧
    (waitLoop active endTime t0).1 ≤ max t0 (endTime + 1) ∧
    ((waitLoop active endTime t0).2 = true ↔
      active (waitLoop active endTime t0).1 = true) ∧
    (∀ t, t0 ≤ t → t < (waitLoop active endTime t0).1 → active t = false) ∧
    ((waitLoop active endTime t0).2 = false →
      (waitLoop active endTime t0).1 = max t0 (endTime + 1)) :=
  waitLoop_spec_aux active endTime (endTime + 1 - t0) t0 (le_refl _)

/-- C9: the `start_streams` readiness wait always terminates within the
batch-proportional deadline of one second (ten ticks) per stream plus one
tick: it returns at the first tick at which every spawned sender has
signaled active if one exists before the deadline passes, and otherwise
returns normally — with the warning flag instead of an error — exactly
when the deadline has elapsed, no batch member having confirmed before. -/
theorem c9_start_streams_wait (batch : Nat) (active : Nat → Bool) :
    (startStreamsWait batch active).1 ≤ 10 * batch + 1 ∧
    ((startStreamsWait batch active).2 = true ↔
      active (startStreamsWait batch active).1 = true) ∧
    (∀ t, t < (startStreamsWait batch active).1 → active t = false) ∧
    ((startStreamsWait batch active).2 = false →
      (startStreamsWait batch active).1 = 10 * batch + 1) := by
  unfold startStreamsWait
  have h := waitLoop_spec active (10 * batch) 0
  refine ⟨by have := h.2.1; omega, h.2.2.1, ?_, ?_⟩
  · intro t ht
    exact h.2.2.2.1 t (Nat.zero_le t) ht
  · intro hf
    have := h.2.2.2.2 hf
    omega

/-- Witness for `c9_start_streams_wait`: a batch of one stream whose
sender confirms immediately. -/
theorem c9_start_streams_wait_witness :
    (startStreamsWait 1 (fun _ => true)).1 ≤ 10 * 1 + 1 ∧
    ((startStreamsWait 1 (fun _ => true)).2 = true ↔
      (fun _ => true : Nat → Bool) (startStreamsWait 1 (fun _ => true)).1 = true) :=
  ⟨(c9_start_streams_wait 1 (fun _ => true)).1,
    (c9_start_streams_wait 1 (fun _ => true)).2.1⟩

/-- The `verify_increment_conf` decorator (dev_pypacker.py lines 53-59):
an increment configuration shorter than two elements raises `TypeError`
before the field generator is built. -/
def checkIncrementConf (conf : List Int) : Except String Unit :=
  if conf.length ≤ 1 then
    Except.error "Stream increment should be a tuple in format (int, int) e.g. (1, 99)"
  else Except.ok ()

/-- The `required_size` argument of `set_stream`: a plain size, or a
tagged tuple whose elements after the tag are kept as a list. -/
inductive RequiredSize where
  | plain (n : Nat)
  | tagged (kind : String) (args : List Int)
deriving DecidableEq, Repr

/-- The `required_size` handling in `set_stream` (dev_pypacker.py lines
292-318): an "Increment" tuple is unpacked as (step, min, max) and a
"Random" tuple as (min, max) — too few elements is an `IndexError`
re-raised as `TypeError`, an unknown tag raises `TypeError` — and in
either valid form a maximum below the minimum raises `TypeError`. -/
def checkRequiredSize : RequiredSize → Except String Unit
  | .plain _ => Except.ok ()
  | .tagged kind args =>
    if kind = "Increment" then
      match args with
      | _ :: lo :: hi :: _ =>
        if hi < lo then
          Except.error "Max value in required_size increment is less than min value"
        else Except.ok ()
      | _ =>
        Except.error "required_size increment should be a tuple in format (Increment, 10, 100, 1) | (Random, 10, 100)"
    else if kind = "Random" then
      match args with
      | lo :: hi :: _ =>
        if hi < lo then
          Except.error "Max value in required_size increment is less than min value"
        else Except.ok ()
      | _ =>
        Except.error "required_size increment should be a tuple in format (Increment, 10, 100, 1) | (Random, 10, 100)"
    else Except.error "required_size increment contains wrong values"

/-- The increment loop of `set_stream` (dev_pypacker.py lines 321-328):
each configured increment passes through `verify_increment_conf`; the
first malformed one raises. -/
def checkIncrements : List (List Int) → Except String Unit
  | [] => Except.ok ()
  | conf :: rest =>
    match checkIncrementConf conf with
    | Except.error e => Except.error e
    | Except.ok _ => checkIncrements rest

/-- The stream id chosen by `set_stream` (dev_pypacker.py line 264):
`max(self.streams.keys()) + 1`, or 1 for an empty table. -/
def newStreamId (keys : List Nat) : Nat :=
  if keys.isEmpty then 1 else keys.foldl max 0 + 1

/-- The definition-time path of `set_stream` (dev_pypacker.py lines
254-340) restricted to what decides the claims: validate the
`required_size` spec and every configured increment, and only then store
the stream under the fresh id.  All validation happens before any packet
of the stream is generated or sent — generation only starts when
`send_stream` builds a `PacketGenerator` later. -/
def set_stream (keys : List Nat) (rs : RequiredSize)
    (confs : List (List Int)) : Except String Nat :=
  match checkRequiredSize rs with
  | Except.error e => Except.error e
  | Except.ok _ =>
    match checkIncrements confs with
    | Except.error e => Except.error e
    | Except.ok _ => Except.ok (newStreamId keys)

/-- Whether a `set_stream` call raised. -/
def raises (r : Except String Nat) : Bool :=
  match r with
  | Except.error _ => true
  | Except.ok _ => false

theorem checkIncrements_raises (confs : List (List Int)) (conf : List Int)
    (hmem : conf ∈ confs) (hshort : conf.length ≤ 1) :
    ∃ e, checkIncrements confs = Except.error e := by
  induction confs with
  | nil => cases hmem
  | cons c rest ih =>
    rw [checkIncrements]
    rcases hc : checkIncrementConf c with e | u
    · exact ⟨e, rfl⟩
    · rcases List.mem_cons.mp hmem with he | hr
      · subst he
        rw [checkIncrementConf, if_pos hshort] at hc
        cases hc
      · exact ih hr

/-- C6: a malformed field increment spec — a tuple of fewer than two
elements where a (count, step) pair is required, or an "Increment" padding
range whose maximum is below its minimum — makes `set_stream` raise a
`TypeError` at stream-definition time, before any packet is generated or
sent. -/
theorem c6_malformed_raises (keys : List Nat) (rs : RequiredSize)
    (confs : List (List Int)) (conf : List Int) (step lo hi : Int)
    (rest : List Int) :
    (conf ∈ confs → conf.length ≤ 1 → raises (set_stream keys rs confs) = true) ∧
    (hi < lo →
      raises (set_stream keys (RequiredSize.tagged "Increment"
        (step :: lo :: hi :: rest)) confs) = true) := by
  constructor
  · intro hmem hshort
    rw [set_stream]
    rcases hr : checkRequiredSize rs with e | u
    · rfl
    · obtain ⟨e, he⟩ := checkIncrements_raises confs conf hmem hshort
      rw [he]
      rfl
  · intro hlt
    rw [set_stream, checkRequiredSize]
    rw [if_pos rfl, if_pos hlt]
    rfl

/-- Witness for `c6_malformed_raises`: a 1-element increment tuple and a
padding range running from 50 down to 10. -/
theorem c6_malformed_raises_witness :
    raises (set_stream [] (RequiredSize.plain 64) [[(5 : Int)]]) = true ∧
    raises (set_stream [] (RequiredSize.tagged "Increment"
      [(10 : Int), 50, 10]) [[(5 : Int)]]) = true :=
  ⟨(c6_malformed_raises [] (RequiredSize.plain 64) [[(5 : Int)]] [(5 : Int)]
      10 50 10 []).1 (by decide) (by decide),
    (c6_malformed_raises [] (RequiredSize.plain 64) [[(5 : Int)]] [(5 : Int)]
      10 50 10 []).2 (by decide)⟩

theorem foldl_max_le_self (keys : List Nat) (a : Nat) :
    a ≤ keys.foldl max a := by
  induction keys generalizing a with
  | nil => exact le_refl a
  | cons k rest ih =>
    exact le_trans (Nat.le_max_left a k) (ih (max a k))

theorem mem_le_foldl_max (keys : List Nat) (a k : Nat) (hk : k ∈ keys) :
    k ≤ keys.foldl max a := by
  induction keys generalizing a with
  | nil => cases hk
  | cons j rest ih =>
    rcases List.mem_cons.mp hk with he | hr
    · subst he
      exact le_trans (Nat.le_max_right a k) (foldl_max_le_self rest (max a k))
    · exact ih (max a j) hr

/-- C10: the stream id chosen by `set_stream` is fresh: it is 1 on an
empty stream table and one greater than the maximum existing id otherwise,
so it strictly exceeds every existing id, is absent from the table, and
storing the new stream under it never overwrites an existing stream
definition. -/
theorem c10_stream_id_fresh (keys : List Nat) :
    (keys = [] → newStreamId keys = 1) ∧
    (keys ≠ [] → newStreamId keys = keys.foldl max 0 + 1) ∧
    (∀ k, k ∈ keys → k < newStreamId keys) ∧
    newStreamId keys ∉ keys := by
  refine ⟨?_, ?_, ?_, ?_⟩
  · intro h
    simp [newStreamId, h]
  · intro h
    rw [newStreamId, if_neg (by simpa [List.isEmpty_iff] using h)]
  · intro k hk
    have hne : keys ≠ [] := by
      intro h
      subst h
      cases hk
    rw [newStreamId, if_neg (by simpa [List.isEmpty_iff] using hne)]
    have := mem_le_foldl_max keys 0 k hk
    omega
  · intro hmem
    have hne : keys ≠ [] := by
      intro h
      subst h
      cases hmem
    have hle := mem_le_foldl_max keys 0 (newStreamId keys) hmem
    rw [newStreamId, if_neg (by simpa [List.isEmpty_iff] using hne)] at hle
    omega

/-- Witness for `c10_stream_id_fresh` on a table holding streams 1, 2
and 5: the next id is 6 and collides with nothing. -/
theorem c10_stream_id_fresh_witness :
    newStreamId [1, 2, 5] = [1, 2, 5].foldl max 0 + 1 ∧
    newStreamId [1, 2, 5] ∉ [1, 2, 5] :=
  ⟨(c10_stream_id_fresh [1, 2, 5]).2.1 (by decide),
    (c10_stream_id_fresh [1, 2, 5]).2.2.2⟩
